import Mathlib

/-
Verification of the report-building pipeline of pytest-html
(`src/pytest_html/basereport.py`) against its natural-language
specification.

Shallow embedding conventions:
- Python floats (test durations) are modelled as exact rationals `ℚ`;
  the arithmetic performed by the code (division, floor, modulo,
  banker's rounding) is embedded exactly.
- Python strings are Lean `String`s; helper functions reproduce the
  semantics of the Python operations used by the source
  (`round`, `%` on non-negative numbers, `str.capitalize`, the `in`
  substring test, `[-n:]` slicing, format-spec centering,
  zero-padding with width 2).
- Regular expressions handed to `re.match` (a configuration input) are
  abstracted as their anchored match functions `String → Bool`.
- The abstract sinks `_data_content` / `_media_content` (overridden in
  subclasses and returning `None` in `BaseReport` itself), the
  collaborator hooks dispatched through the plugin manager,
  `json.dumps` and `unicode_escape` decoding (Python stdlib) are
  parameters, bundled in the `Hooks` structure.
- `_generate_report` renders and rewrites the output file; the state
  machine model counts its invocations in `renderCount` instead of
  performing I/O.
-/

namespace PytestHtml

/-! ## Python primitive semantics -/

/-- Python `round` on an exact rational: round half to even
(banker's rounding), as CPython `round` does. -/
def pyRound (q : ℚ) : ℤ :=
  let f := ⌊q⌋
  let r := q - f
  if r < 1/2 then f
  else if 1/2 < r then f + 1
  else if f % 2 = 0 then f else f + 1

/-- Python `x % y` on rationals with a positive modulus:
`x - y * floor(x / y)`. -/
def pyMod (x y : ℚ) : ℚ := x - y * ⌊x / y⌋

/-- Python `f"{n:02d}"`: decimal rendering left-padded with a zero to
width 2 (the sign counts toward the width). -/
def pad2 (n : ℤ) : String :=
  let s := toString n
  if s.length < 2 then "0" ++ s else s

/-- Python format-spec centering `f"{s:f^w}"`: pad `s` with `fill` to
width `w`, the extra fill character (odd margin) going to the right;
a string at least `w` long is returned unchanged. -/
def pyCenterFmt (fill : Char) (width : Nat) (s : String) : String :=
  if width ≤ s.length then s
  else
    let marg := width - s.length
    let lpad := marg / 2
    String.mk (List.replicate lpad fill) ++ s ++
      String.mk (List.replicate (marg - lpad) fill)

/-- Python slicing `s[k:]` with an integer (possibly negative) start
index: a negative start counts from the end and clamps at 0, a
non-negative start clamps at the length. -/
def pySliceFrom (k : ℤ) (s : String) : String :=
  let len : ℤ := s.data.length
  let start : ℤ := if k < 0 then max (len + k) 0 else min k len
  String.mk (s.data.drop start.toNat)

/-- Python `str.capitalize`: first character uppercased, all remaining
characters lowercased. -/
def pyCapitalize (s : String) : String :=
  match s.data with
  | [] => ""
  | c :: cs => String.mk (c.toUpper :: cs.map Char.toLower)

/-- Python substring test `sub in s`. -/
def strContains (s sub : String) : Bool :=
  (List.range (s.data.length + 1)).any
    (fun i => sub.data.isPrefixOf (s.data.drop i))

/-- The HTML escaping applied to tracebacks:
`.replace("<", "&lt;").replace(">", "&gt;")`. -/
def escapeAngle (s : String) : String :=
  (s.replace "<" "&lt;").replace ">" "&gt;"

/-! ## Result records

`pytest` delivers a test report per phase.  The fields the module
reads are embedded; `outcome` and `when` range over the values the
specification enumerates (§4.2), `wasxfail`/`rerun` attribute presence
is explicit. -/

/-- Test phase (`report.when`). -/
inductive Phase
  | setup
  | call
  | teardown
deriving DecidableEq, BEq

/-- String form of a phase, as pytest stores it. -/
def phaseStr : Phase → String
  | .setup => "setup"
  | .call => "call"
  | .teardown => "teardown"

/-- Raw outcome of a phase (`report.outcome`). -/
inductive Outcome
  | passed
  | failed
  | skipped
  | rerun
deriving DecidableEq, BEq

/-- String form of an outcome, as pytest stores it (lowercase). -/
def outcomeStr : Outcome → String
  | .passed => "passed"
  | .failed => "failed"
  | .skipped => "skipped"
  | .rerun => "rerun"

/-- An attached artifact (`extras` entry).  `content` is modelled in
its string form (text already decoded from bytes). -/
structure Extra where
  name : String
  format_type : String
  content : String
  mime_type : String
  extension : String
deriving DecidableEq

/-- A per-phase test report as read by `basereport.py`.  `hasRerun`
models `hasattr(report, "rerun")` and `rerun` the attribute's value
when present. -/
structure Report where
  nodeid : String
  when : Phase
  outcome : Outcome
  wasxfail : Bool
  duration : ℚ
  longreprtext : String
  sections : List (String × String)
  hasRerun : Bool
  rerun : ℤ
  extras : List Extra
deriving DecidableEq

/-- Modelled from the spec: the `extras` module's format-type
constants (`FORMAT_JSON` etc.); the module itself is not part of the
given source, the spec (§3) enumerates the enum
`json|text|image|video|url`. -/
def FORMAT_JSON : String := "json"

/-- Modelled from the spec: `extras.FORMAT_TEXT`. -/
def FORMAT_TEXT : String := "text"

/-- Modelled from the spec: `extras.FORMAT_IMAGE`. -/
def FORMAT_IMAGE : String := "image"

/-- Modelled from the spec: `extras.FORMAT_VIDEO`. -/
def FORMAT_VIDEO : String := "video"

/-- Modelled from the spec: `extras.FORMAT_URL`. -/
def FORMAT_URL : String := "url"

/-! ## Leaf functions of `basereport.py` -/

/-- `_format_duration(duration)`: durations below one second render as
rounded milliseconds; otherwise hours and minutes are peeled off by
floor division with remainder chaining, the final remainder is
rounded, and the three fields render zero-padded to width 2. -/
def _format_duration (duration : ℚ) : String :=
  if duration < 1 then
    toString (pyRound (duration * 1000)) ++ " ms"
  else
    let hours := ⌊duration / 3600⌋
    let remaining_seconds := pyMod duration 3600
    let minutes := ⌊remaining_seconds / 60⌋
    let remaining_seconds2 := pyMod remaining_seconds 60
    let seconds := pyRound remaining_seconds2
    pad2 hours ++ ":" ++ pad2 minutes ++ ":" ++ pad2 seconds

/-- The duration format as the specification words it:
`"<round(d*1000)> ms"` below one second, else zero-padded `HH:MM:SS`
with `hours = floor(d/3600)`, `minutes = floor((d mod 3600)/60)`,
`seconds = round(d mod 3600 mod 60)`. -/
def spec_format_duration (d : ℚ) : String :=
  if d < 1 then
    toString (pyRound (d * 1000)) ++ " ms"
  else
    pad2 ⌊d / 3600⌋ ++ ":" ++ pad2 ⌊pyMod d 3600 / 60⌋ ++ ":" ++
      pad2 (pyRound (pyMod (pyMod d 3600) 60))

/-- `_is_error(report)`: a failure in the setup or teardown phase. -/
def _is_error (report : Report) : Bool :=
  (report.when == .setup || report.when == .teardown) &&
    report.outcome == .failed

/-- `_process_outcome(report)`: display label for a result record.
Setup/teardown failures label as "Error"; with an xfail marker,
passed/failed label as "XPassed" and skipped as "XFailed"; anything
else (including a marked rerun) falls through to the capitalized
outcome string. -/
def _process_outcome (report : Report) : String :=
  if _is_error report then "Error"
  else if report.wasxfail then
    if report.outcome == .passed || report.outcome == .failed then "XPassed"
    else if report.outcome == .skipped then "XFailed"
    else pyCapitalize (outcomeStr report.outcome)
  else pyCapitalize (outcomeStr report.outcome)

/-- `_process_logs(report)`: the escaped traceback first (when
non-empty), then—unless the outcome is a rerun—per captured section a
banner line (the header centered to 80 columns with dashes) glued to
the raw content, plus the extra blank entries for log-flavoured
headers; a single placeholder when nothing was appended. -/
def _process_logs (report : Report) : List String :=
  let log : List String :=
    if report.longreprtext = "" then []
    else [escapeAngle report.longreprtext ++ "\n"]
  let log :=
    if report.outcome ≠ .rerun then
      report.sections.foldl
        (fun log sec =>
          let log := log ++
            [pyCenterFmt '-' 80 (" " ++ sec.1 ++ " ") ++ "\n" ++ sec.2]
          if strContains sec.1 "log" then
            let log := log ++ [""]
            if strContains sec.1 "call" then log ++ [""] else log
          else log)
        log
    else log
  if log = [] then ["No log output captured."] else log

/-- Entries one captured section contributes, as the specification
words it: a centered 80-column header banner followed by the raw
content, one extra blank entry when the header contains "log" and one
more when it additionally contains "call". -/
def sectionLogEntries (sec : String × String) : List String :=
  [pyCenterFmt '-' 80 (" " ++ sec.1 ++ " ") ++ "\n" ++ sec.2] ++
    (if strContains sec.1 "log" then
      [""] ++ (if strContains sec.1 "call" then [""] else [])
    else [])

/-- The log list as the specification words it: escaped traceback
first when non-empty; section entries unless the outcome is "rerun";
exactly one placeholder entry when nothing was appended. -/
def claim_process_logs (report : Report) : List String :=
  let entries :=
    (if report.longreprtext = "" then []
     else [escapeAngle report.longreprtext ++ "\n"]) ++
    (if report.outcome = .rerun then []
     else report.sections.flatMap sectionLogEntries)
  if entries = [] then ["No log output captured."] else entries

/-- A character the regex class `\w` matches (ASCII fragment: letters,
digits, underscore). -/
def isPyWordChar (c : Char) : Bool := c.isAlphanum || c == '_'

/-- `re.sub(r"[^\w.]", "_", test_id)`: every character that is neither
a word character nor a dot becomes an underscore. -/
def sanitizeId (s : String) : String :=
  String.mk (s.data.map (fun c => if isPyWordChar c || c == '.' then c else '_'))

/-- `_asset_filename(test_id, extra_index, test_index, file_extension)`:
sanitized test id and the two indices joined by underscores, a dot,
the extension—then Python-sliced to the trailing
`max_asset_filename_length` characters via `[-maxLen:]`. -/
def _asset_filename (maxLen : ℤ) (test_id : String) (extra_index : ℕ)
    (test_index : ℤ) (file_extension : String) : String :=
  pySliceFrom (-maxLen)
    (sanitizeId test_id ++ "_" ++ toString extra_index ++ "_" ++
      toString test_index ++ "." ++ file_extension)

/-- The asset filename as the claim words it: the assembled name
truncated by keeping only the trailing `maxLen` characters. -/
def claim_asset_filename (maxLen : ℕ) (test_id : String) (extra_index : ℕ)
    (test_index : ℤ) (file_extension : String) : String :=
  let full := sanitizeId test_id ++ "_" ++ toString extra_index ++ "_" ++
    toString test_index ++ "." ++ file_extension
  String.mk (full.data.drop (full.data.length - maxLen))

/-- The rerun-aware test index
`hasattr(report, "rerun") and report.rerun + 1 or 0`: Python
`and`/`or` chain over truthiness—a missing attribute gives 0, and a
present attribute gives `rerun + 1` unless that value is the falsy 0,
in which case the `or` arm yields 0 again. -/
def testIndex (hasRerun : Bool) (rerun : ℤ) : ℤ :=
  if hasRerun then (if rerun + 1 = 0 then 0 else rerun + 1) else 0

/-- `_is_redactable_environment_variable(environment_variable)`: some
configured redaction regex matches the key.  Each regex is abstracted
as its anchored `re.match` function. -/
def _is_redactable_environment_variable
    (redactable_regexes : List (String → Bool))
    (environment_variable : String) : Bool :=
  redactable_regexes.any
    (fun redactable_regex => redactable_regex environment_variable)

/-- The masking glyph `chr(0x2593)` (dark shade block). -/
def blackBoxChar : Char := Char.ofNat 0x2593

/-- `_generate_environment(metadata)`: every metadata value whose key
some redaction regex matches is replaced by
`"".join(chr(0x2593) for _ in str(value))`; other entries pass through.
Values are modelled in their `str` form. -/
def _generate_environment (redactable_regexes : List (String → Bool))
    (metadata : List (String × String)) : List (String × String) :=
  metadata.map (fun kv =>
    if _is_redactable_environment_variable redactable_regexes kv.1 then
      (kv.1, String.mk (kv.2.data.map (fun _ => blackBoxChar)))
    else kv)

/-- `_fix_py(cells)`: the backwards-compatibility coercion of non-`str`
cells; on cells that are already strings (the only case representable
in this embedding) it passes every cell through unchanged. -/
def _fix_py (cells : List String) : List String := cells

/-- `_process_links(links)`: the anchor markup for each link-flavoured
extra, concatenated; `format_map` substitutes `content`,
`format_type` and `name` into the anchor template in one pass. -/
def _process_links (links : List Extra) : String :=
  String.join (links.map (fun link =>
    "<a target=\"_blank\" href=\"" ++ link.content ++
      "\" class=\"col-links__extra " ++ link.format_type ++ "\">" ++
      link.name ++ "</a>"))

/-! ## The report data model and lifecycle -/

/-- Report running state (spec §3: enum NotStarted|Started|Finished). -/
inductive RunningState
  | NotStarted
  | Started
  | Finished
deriving DecidableEq

/-- The `data` dict built per qualifying logreport event. -/
structure RowData where
  result : String
  duration : String
  testId : String
  resultsTableRow : List String
  log : List String
deriving DecidableEq

/-- The mutable report aggregate (spec §3 ReportData), restricted to
the fields `basereport.py` touches.  `renderCount` counts
`_generate_report` invocations (each renders and rewrites the output
file). -/
structure ReportState where
  title : String
  environment : List (String × String)
  resultsTableHeader : List String
  summaryPre : List String
  summaryMain : List String
  summaryPost : List String
  rows : List RowData
  totalTotal : ℚ
  totalFormatted : String
  runningState : RunningState
  collectedItems : ℕ
  renderCount : ℕ

/-- External collaborators: plugin hooks, the report-data insertion
policy (`add_test`, which lives in the report_data module outside the
given source), the abstract content sinks, stdlib codecs, and the
configuration inputs. -/
structure Hooks where
  hookTitle : String → String
  hookHeader : List String → List String
  hookRow : Report → List String → List String
  hookHtml : Report → List String → List String
  hookSummary : List String × List String × List String →
    List String × List String × List String
  addTest : List RowData → RowData → Report → List String →
    List RowData × Bool
  dumps : String → String
  dataContent : String → String → String → String
  mediaContent : String → String → String → String
  unicodeUnescape : String → String
  regexes : List (String → Bool)
  metadata : List (String × String)
  maxAssetLen : ℤ

/-- Modelled from the spec: the initial report-data aggregate (the
report_data module is not part of the given source; spec §3 gives
runningState the enum starting at NotStarted, empty aggregates, and a
zero running total). -/
def initState : ReportState :=
  { title := ""
    environment := []
    resultsTableHeader := []
    summaryPre := []
    summaryMain := []
    summaryPost := []
    rows := []
    totalTotal := 0
    totalFormatted := ""
    runningState := .NotStarted
    collectedItems := 0
    renderCount := 0 }

/-- The test id used for a row: the node id, suffixed with the phase
name when the phase is not "call". -/
def testIdOf (report : Report) : String :=
  report.nodeid ++
    (if report.when ≠ .call then "::" ++ phaseStr report.when else "")

/-- `_process_extras(report, test_id)`: per attached extra, compute
the asset filename (from the unicode-unescaped test id, the extra
index, and the rerun-aware test index) and route the content through
the matching sink; other format types pass through. -/
def _process_extras (H : Hooks) (report : Report) (test_id : String) :
    List Extra :=
  let test_index := testIndex report.hasRerun report.rerun
  report.extras.enum.map (fun p =>
    let extra_index := p.1
    let extra := p.2
    let asset_name := _asset_filename H.maxAssetLen
      (H.unicodeUnescape test_id) extra_index test_index extra.extension
    if extra.format_type == FORMAT_JSON then
      { extra with content :=
          H.dataContent (H.dumps extra.content) asset_name extra.mime_type }
    else if extra.format_type == FORMAT_TEXT then
      { extra with content :=
          H.dataContent extra.content asset_name extra.mime_type }
    else if extra.format_type == FORMAT_IMAGE ||
        extra.format_type == FORMAT_VIDEO then
      { extra with content :=
          H.mediaContent extra.content asset_name extra.mime_type }
    else extra)

/-- The four result-table cells built for a report before the row
hook runs. -/
def builtCells (H : Hooks) (report : Report) : List String :=
  let processedExtras := _process_extras H report (testIdOf report)
  let links := processedExtras.filter (fun e =>
    e.format_type == "json" || e.format_type == "text" ||
      e.format_type == "url")
  ["<td class=\"col-result\">" ++ _process_outcome report ++ "</td>",
   "<td class=\"col-name\">" ++ testIdOf report ++ "</td>",
   "<td class=\"col-duration\">" ++ _format_duration report.duration ++ "</td>",
   "<td class=\"col-links\">" ++ _process_links links ++ "</td>"]

/-- `pytest_sessionstart`: populate the (redacted) environment, let
hooks customize title and header, normalize the header, mark the run
Started, render. -/
def pytest_sessionstart (H : Hooks) (st : ReportState) : ReportState :=
  let st := { st with
    environment := _generate_environment H.regexes H.metadata }
  let st := { st with title := H.hookTitle st.title }
  let headers := H.hookHeader st.resultsTableHeader
  let st := { st with resultsTableHeader := _fix_py headers }
  let st := { st with runningState := .Started }
  { st with renderCount := st.renderCount + 1 }

/-- `pytest_sessionfinish`: let the summary hook finalize the summary
fragments, mark the run Finished, render. -/
def pytest_sessionfinish (H : Hooks) (st : ReportState) : ReportState :=
  let t := H.hookSummary (st.summaryPre, st.summaryMain, st.summaryPost)
  let st := { st with
    summaryPre := t.1, summaryMain := t.2.1, summaryPost := t.2.2 }
  let st := { st with runningState := .Finished }
  { st with renderCount := st.renderCount + 1 }

/-- `pytest_runtest_logreport`: accumulate the duration into the
running total, build the row cells, let the row hook customize them—an
emptied cell list returns early (no row, no render)—then process the
logs, hand the row to the data model's `add_test`, and render when the
insertion policy says so. -/
def pytest_runtest_logreport (H : Hooks) (st : ReportState)
    (report : Report) : ReportState :=
  let st1 := { st with
    totalTotal := st.totalTotal + report.duration
    totalFormatted := _format_duration (st.totalTotal + report.duration) }
  let cells := H.hookRow report (builtCells H report)
  if cells = [] then st1
  else
    let cells2 := _fix_py cells
    let processed := H.hookHtml report (_process_logs report)
    let data : RowData :=
      { result := _process_outcome report
        duration := _format_duration report.duration
        testId := testIdOf report
        resultsTableRow := cells2
        log := processed }
    let res := H.addTest st1.rows data report processed
    let st2 := { st1 with rows := res.1 }
    if res.2 then { st2 with renderCount := st2.renderCount + 1 } else st2

/-- Runner lifecycle events observed by the plugin. -/
inductive Event
  | sessionStart
  | collectionFinish (n : ℕ)
  | testReport (r : Report)
  | sessionFinish

/-- One lifecycle step of the report builder. -/
def step (H : Hooks) (st : ReportState) : Event → ReportState
  | .sessionStart => pytest_sessionstart H st
  | .collectionFinish n => { st with collectedItems := n }
  | .testReport r => pytest_runtest_logreport H st r
  | .sessionFinish => pytest_sessionfinish H st

/-- Folding a sequence of per-test-report events into the state. -/
def runReports (H : Hooks) (st : ReportState) (rs : List Report) :
    ReportState :=
  rs.foldl (fun s r => step H s (.testReport r)) st

/-- The canonical lifecycle event order: session start, the per-test
reports, session finish. -/
def lifecycleEvents (rs : List Report) : List Event :=
  Event.sessionStart :: (rs.map Event.testReport ++ [Event.sessionFinish])

/-- The trace of running states along the canonical lifecycle,
starting from the initial aggregate. -/
def runningTrace (H : Hooks) (rs : List Report) : List RunningState :=
  (List.scanl (step H) initState (lifecycleEvents rs)).map
    ReportState.runningState

/-! ## Concrete instances for witnesses -/

/-- Hooks where every collaborator is the identity-like default and
`add_test` appends the row and asks for a render. -/
def trivialHooks : Hooks :=
  { hookTitle := id
    hookHeader := id
    hookRow := fun _ c => c
    hookHtml := fun _ l => l
    hookSummary := id
    addTest := fun rows d _ _ => (rows ++ [d], true)
    dumps := id
    dataContent := fun c _ _ => c
    mediaContent := fun c _ _ => c
    unicodeUnescape := id
    regexes := []
    metadata := []
    maxAssetLen := 255 }

/-- Hooks whose row hook clears the cell list. -/
def clearingHooks : Hooks :=
  { trivialHooks with hookRow := fun _ _ => [] }

/-- A concrete passing call report. -/
def exReport : Report :=
  { nodeid := "t.py::test_a"
    when := .call
    outcome := .passed
    wasxfail := false
    duration := 1
    longreprtext := ""
    sections := []
    hasRerun := false
    rerun := 0
    extras := [] }

/-! ## Theorems -/

/-- Claim C1: for every elapsed duration d ≥ 0, the duration formatter
returns `"<round(d*1000)> ms"` when d < 1 and otherwise the zero-padded
`HH:MM:SS` decomposition with hours = floor(d/3600),
minutes = floor((d mod 3600)/60), seconds = round(d mod 3600 mod 60);
in particular format(3661.4) = "01:01:01".  It never fails: the
embedding is a total function. -/
theorem format_duration_spec (d : ℚ) (_h : 0 ≤ d) :
    _format_duration d = spec_format_duration d ∧
      _format_duration 3661.4 = "01:01:01" := by
  constructor
  · rfl
  · have h1 : ¬ (3661.4:ℚ) < 1 := by norm_num
    have hH : ⌊(3661.4:ℚ) / 3600⌋ = 1 := by rw [Int.floor_eq_iff]; norm_num
    have hm1 : pyMod (3661.4:ℚ) 3600 = 61.4 := by rw [pyMod, hH]; norm_num
    have hM : ⌊(61.4:ℚ) / 60⌋ = 1 := by rw [Int.floor_eq_iff]; norm_num
    have hm2 : pyMod (61.4:ℚ) 60 = 1.4 := by rw [pyMod, hM]; norm_num
    have hf : ⌊(1.4:ℚ)⌋ = 1 := by rw [Int.floor_eq_iff]; norm_num
    have hS : pyRound (1.4:ℚ) = 1 := by
      simp only [pyRound, hf]
      norm_num
    unfold _format_duration
    rw [if_neg h1]
    simp only [hH, hm1, hM, hm2, hS]
    decide

/-- Witness for C1 at d = 2. -/
theorem format_duration_spec_witness :
    _format_duration 2 = spec_format_duration 2 ∧
      _format_duration 3661.4 = "01:01:01" :=
  format_duration_spec 2 (by norm_num)

/-- Claim C9: a duration whose final remainder rounds up to 60 renders
with a seconds field of "60" (here d = 59.7 gives "00:00:60"); the
overflow is not carried into the minutes field, because the seconds
component is rounded independently after the floor/modulo
decomposition. -/
theorem format_duration_seconds_sixty :
    (1:ℚ) ≤ 59.7 ∧ (59.7:ℚ) < 3600 ∧
      pyRound (pyMod (pyMod (59.7:ℚ) 3600) 60) = 60 ∧
      _format_duration 59.7 = "00:00:60" := by
  have hH : ⌊(59.7:ℚ) / 3600⌋ = 0 := by rw [Int.floor_eq_iff]; norm_num
  have hm1 : pyMod (59.7:ℚ) 3600 = 59.7 := by rw [pyMod, hH]; norm_num
  have hM : ⌊(59.7:ℚ) / 60⌋ = 0 := by rw [Int.floor_eq_iff]; norm_num
  have hm2 : pyMod (59.7:ℚ) 60 = 59.7 := by rw [pyMod, hM]; norm_num
  have hf : ⌊(59.7:ℚ)⌋ = 59 := by rw [Int.floor_eq_iff]; norm_num
  have hS : pyRound (59.7:ℚ) = 60 := by
    simp only [pyRound, hf]
    norm_num
  refine ⟨by norm_num, by norm_num, ?_, ?_⟩
  · rw [hm1, hm2]
    exact hS
  · unfold _format_duration
    rw [if_neg (by norm_num)]
    simp only [hH, hm1, hM, hm2, hS]
    decide

/-- Claim C2: the outcome classifier applies, in order: setup/teardown
failures give "Error"; else with an xfail marker passed/failed give
"XPassed" and skipped gives "XFailed"; everything else (including a
marked rerun) falls through to the capitalized outcome string. -/
theorem process_outcome_spec (r : Report) :
    _process_outcome r =
      if (r.when = .setup ∨ r.when = .teardown) ∧ r.outcome = .failed then
        "Error"
      else if r.wasxfail ∧ (r.outcome = .passed ∨ r.outcome = .failed) then
        "XPassed"
      else if r.wasxfail ∧ r.outcome = .skipped then "XFailed"
      else pyCapitalize (outcomeStr r.outcome) := by
  obtain ⟨n, w, o, x, d, l, s, hr, rr, ex⟩ := r
  cases w <;> cases o <;> cases x <;> rfl

/-- Claim C10: the rerun-aware test index is 0 for a report whose
rerun attribute equals -1 (the and/or chain sees the falsy 0),
identical to a report with no rerun attribute; for rerun ≥ 0 it is
rerun + 1. -/
theorem test_index_rerun (r : ℤ) (h : 0 ≤ r) :
    testIndex true (-1) = 0 ∧ testIndex false (-1) = 0 ∧
      testIndex true r = r + 1 := by
  refine ⟨rfl, rfl, ?_⟩
  have hne : r + 1 ≠ 0 := by omega
  simp [testIndex, hne]

/-- Witness for C10 at rerun = 3. -/
theorem test_index_rerun_witness :
    testIndex true (-1) = 0 ∧ testIndex false (-1) = 0 ∧
      testIndex true 3 = 3 + 1 :=
  test_index_rerun 3 (by norm_num)

/-- Claim C3: the environment redactor replaces the value of every key
some redaction regex matches (regexes abstracted as their anchored
match functions) with the masking glyph repeated exactly once per
character of the value's string form—hence length-preserving—and
leaves every other entry unchanged. -/
theorem generate_environment_spec (regexes : List (String → Bool))
    (metadata : List (String × String)) :
    _generate_environment regexes metadata =
      metadata.map (fun kv =>
        if _is_redactable_environment_variable regexes kv.1 then
          (kv.1, String.mk (List.replicate kv.2.length blackBoxChar))
        else kv) := by
  unfold _generate_environment
  congr 1
  funext kv
  split
  · rw [List.map_const']
    rfl
  · rfl

/-- Counterexample for C4 as stated: with a configured maximum length
of 0, Python `[-0:]` keeps the whole name, not the trailing 0
characters. -/
theorem asset_filename_maxlen_zero :
    _asset_filename 0 "a" 0 0 "p" ≠ claim_asset_filename 0 "a" 0 0 "p" := by
  decide

/-- Claim C4 (amended): for every configured maximum length N ≥ 1 the
asset filename is the sanitized test id (non-word, non-dot characters
replaced by "_") joined with the extra index, the test index and the
extension, truncated to the trailing N characters; for N = 0 the code
keeps the whole name.  The concrete example of the claim holds. -/
theorem asset_filename_spec (maxLen : ℕ) (h : 1 ≤ maxLen)
    (test_id : String) (extra_index : ℕ) (test_index : ℤ) (ext : String) :
    _asset_filename maxLen test_id extra_index test_index ext =
      claim_asset_filename maxLen test_id extra_index test_index ext ∧
      _asset_filename 255 "tests/test_x.py::test_y[a/b]" 0 0 "png" =
        "tests_test_x.py__test_y_a_b__0_0.png" := by
  constructor
  · have hneg : (-(maxLen:ℤ)) < 0 := by omega
    simp only [_asset_filename, claim_asset_filename, pySliceFrom]
    rw [if_pos hneg]
    congr 1
    congr 1
    omega
  · decide

/-- Witness for C4 at the claim's example input (N = 255). -/
theorem asset_filename_spec_witness :
    1 ≤ 255 ∧
      (_asset_filename 255 "tests/test_x.py::test_y[a/b]" 0 0 "png" =
          claim_asset_filename 255 "tests/test_x.py::test_y[a/b]" 0 0 "png" ∧
        _asset_filename 255 "tests/test_x.py::test_y[a/b]" 0 0 "png" =
          "tests_test_x.py__test_y_a_b__0_0.png") :=
  ⟨by decide,
    asset_filename_spec 255 (by decide) "tests/test_x.py::test_y[a/b]" 0 0 "png"⟩

/-- Accumulating the section entries with the source's fold is the
same as concatenating each section's entry list. -/
theorem process_logs_foldl (secs : List (String × String))
    (init : List String) :
    secs.foldl
      (fun log sec =>
        let log := log ++
          [pyCenterFmt '-' 80 (" " ++ sec.1 ++ " ") ++ "\n" ++ sec.2]
        if strContains sec.1 "log" then
          let log := log ++ [""]
          if strContains sec.1 "call" then log ++ [""] else log
        else log)
      init = init ++ secs.flatMap sectionLogEntries := by
  induction secs generalizing init with
  | nil => simp
  | cons sec rest ih =>
    rw [List.foldl_cons, ih, List.flatMap_cons]
    cases h1 : strContains sec.1 "log" with
    | false => simp [sectionLogEntries, h1]
    | true =>
      cases h2 : strContains sec.1 "call" with
      | false => simp [sectionLogEntries, h1, h2]
      | true => simp [sectionLogEntries, h1, h2]

/-- Claim C5: the log processor emits the escaped traceback first when
non-empty; then, unless the outcome is "rerun", per section a centered
80-column banner glued to the raw content plus the extra blank
entries for log-flavoured headers; and exactly one placeholder entry
when nothing was appended. -/
theorem process_logs_spec (report : Report) :
    _process_logs report = claim_process_logs report := by
  unfold _process_logs claim_process_logs
  by_cases hr : report.outcome = Outcome.rerun
  · simp [hr]
  · simp only [ne_eq]
    rw [if_pos hr, if_neg hr, process_logs_foldl]

/-- The logreport handler adds the report's duration to the running
total in every branch. -/
theorem step_testReport_totalTotal (H : Hooks) (st : ReportState)
    (r : Report) :
    (step H st (.testReport r)).totalTotal = st.totalTotal + r.duration := by
  show (pytest_runtest_logreport H st r).totalTotal = _
  simp only [pytest_runtest_logreport]
  split
  · rfl
  · split <;> rfl

/-- Claim C7: assuming every report carries a non-negative duration,
totalDuration.total is monotonically non-decreasing across the
sequence of per-test-report events. -/
theorem total_duration_monotone (H : Hooks) (st : ReportState)
    (rs : List Report) (h : ∀ r ∈ rs, 0 ≤ r.duration) :
    st.totalTotal ≤ (runReports H st rs).totalTotal := by
  induction rs generalizing st with
  | nil => exact le_refl _
  | cons r rest ih =>
    have h1 : 0 ≤ r.duration := h r (List.mem_cons_self r rest)
    have h2 : ∀ x ∈ rest, 0 ≤ x.duration :=
      fun x hx => h x (List.mem_cons_of_mem r hx)
    have hstep : st.totalTotal ≤ (step H st (.testReport r)).totalTotal := by
      rw [step_testReport_totalTotal]
      linarith
    exact le_trans hstep (ih (step H st (.testReport r)) h2)

/-- Witness for C7: one passing report of duration 1. -/
theorem total_duration_monotone_witness :
    (∀ r ∈ [exReport], 0 ≤ r.duration) ∧
      initState.totalTotal ≤
        (runReports trivialHooks initState [exReport]).totalTotal := by
  have hd : ∀ r ∈ [exReport], 0 ≤ r.duration := by
    intro r hrr
    rw [List.mem_singleton] at hrr
    subst hrr
    norm_num [exReport]
  exact ⟨hd, total_duration_monotone trivialHooks initState [exReport] hd⟩

/-- Claim C6: when the row-customization hook clears the cell list,
the logreport handler returns early: no row is appended to the data
model and no re-render/re-write happens for that event. -/
theorem row_suppression (H : Hooks) (st : ReportState) (r : Report)
    (h : H.hookRow r (builtCells H r) = []) :
    (step H st (.testReport r)).rows = st.rows ∧
      (step H st (.testReport r)).renderCount = st.renderCount := by
  show (pytest_runtest_logreport H st r).rows = st.rows ∧
    (pytest_runtest_logreport H st r).renderCount = st.renderCount
  simp only [pytest_runtest_logreport]
  rw [if_pos h]
  exact ⟨rfl, rfl⟩

/-- Witness for C6: a hook that clears every row. -/
theorem row_suppression_witness :
    (step clearingHooks initState (.testReport exReport)).rows =
        initState.rows ∧
      (step clearingHooks initState (.testReport exReport)).renderCount =
        initState.renderCount :=
  row_suppression clearingHooks initState exReport rfl

/-- A session start forces the running state to Started. -/
theorem step_sessionStart_runningState (H : Hooks) (st : ReportState) :
    (step H st .sessionStart).runningState = .Started := rfl

/-- A session finish forces the running state to Finished. -/
theorem step_sessionFinish_runningState (H : Hooks) (st : ReportState) :
    (step H st .sessionFinish).runningState = .Finished := rfl

/-- A per-test report leaves the running state untouched. -/
theorem step_testReport_runningState (H : Hooks) (st : ReportState)
    (r : Report) :
    (step H st (.testReport r)).runningState = st.runningState := by
  show (pytest_runtest_logreport H st r).runningState = st.runningState
  simp only [pytest_runtest_logreport]
  split
  · rfl
  · split <;> rfl

/-- From a Started state, the per-test reports keep the state Started
and the final session finish moves it to Finished. -/
theorem scanl_reports_aux (H : Hooks) (st : ReportState)
    (hst : st.runningState = .Started) (rs : List Report) :
    (List.scanl (step H) st
        (rs.map Event.testReport ++ [Event.sessionFinish])).map
      ReportState.runningState =
      .Started :: (rs.map (fun _ => RunningState.Started) ++ [.Finished]) := by
  induction rs generalizing st with
  | nil =>
    simp [List.scanl_cons, hst, step_sessionFinish_runningState]
  | cons r rest ih =>
    have hst2 : (step H st (.testReport r)).runningState = .Started := by
      rw [step_testReport_runningState, hst]
    simp only [List.map_cons, List.cons_append, List.scanl_cons,
      List.nil_append, ih (step H st (.testReport r)) hst2, hst]

/-- Claim C8: under the lifecycle order session start → per-test
reports → session finish, the trace of running states is exactly
NotStarted, Started (at session start), Started for every per-test
report, Finished (at session finish): the state moves only forward,
never re-enters a state, and performs no other transition. -/
theorem running_state_trace (H : Hooks) (rs : List Report) :
    runningTrace H rs =
      .NotStarted :: .Started ::
        (rs.map (fun _ => RunningState.Started) ++ [.Finished]) := by
  unfold runningTrace lifecycleEvents
  rw [List.scanl_cons]
  simp only [List.singleton_append, List.map_cons]
  rw [scanl_reports_aux H (step H initState .sessionStart)
    (step_sessionStart_runningState H initState) rs]
  rfl

end PytestHtml
